import Mathlib

/-!
Shallow embedding of the claudish proxy (guychenya/cognate): the JSON value
model used by `JSON.parse` / `JSON.stringify`, the streaming transcoder of
`src/proxy-server.ts` (`/v1/messages`), the backend router
(`getHandlerForRequest`), the OpenRouter stream handler
(`src/handlers/openrouter-handler.ts`, `handleStreamingResponse`) and the
Gemini native handler's request construction
(`src/handlers/gemini-native-handler.ts`, `generate`).
-/

namespace Claudish

/-! ### JSON values

Model of the JavaScript JSON data produced by `JSON.parse` and consumed by
`JSON.stringify`.  Object fields keep insertion order, as JS objects do.
Numbers are modelled as integers; every numeric literal appearing in the
verified code paths is an integer. -/

inductive Json where
  | null : Json
  | bool (b : Bool) : Json
  | num (n : Int) : Json
  | str (s : String) : Json
  | arr (elems : List Json) : Json
  | obj (fields : List (String × Json)) : Json
  deriving Repr

/-- JS whitespace recognized by `JSON.parse` between tokens. -/
def isWsChar (c : Char) : Bool :=
  c = ' ' || c = '\t' || c = '\n' || c = '\r'

/-- Drop leading JSON whitespace. -/
def skipWs : List Char → List Char
  | [] => []
  | c :: cs => if isWsChar c then skipWs cs else c :: cs

/-- Decode the body of a JSON string literal (after the opening quote),
returning the decoded characters and the remainder after the closing
quote.  Handles the escape sequences used by the program's data. -/
def parseStrChars : List Char → Option (List Char × List Char)
  | [] => none
  | '"' :: rest => some ([], rest)
  | '\\' :: e :: rest =>
    let esc : Option Char :=
      if e = '"' then some '"'
      else if e = '\\' then some '\\'
      else if e = '/' then some '/'
      else if e = 'n' then some '\n'
      else if e = 't' then some '\t'
      else if e = 'r' then some '\r'
      else if e = 'b' then some (Char.ofNat 8)
      else if e = 'f' then some (Char.ofNat 12)
      else none
    match esc with
    | none => none
    | some c =>
      match parseStrChars rest with
      | none => none
      | some (s, r) => some (c :: s, r)
  | c :: rest =>
    if c = '\\' then none
    else
      match parseStrChars rest with
      | none => none
      | some (s, r) => some (c :: s, r)

/-- Numeric value of the leading decimal digits. -/
def digitsToNat (ds : List Char) : Nat :=
  ds.foldl (fun acc c => acc * 10 + (c.toNat - 48)) 0

mutual

/-- Parse one JSON value; fuel bounds the recursion depth. -/
def parseVal : Nat → List Char → Option (Json × List Char)
  | 0, _ => none
  | Nat.succ fuel, cs =>
    match skipWs cs with
    | 'n' :: 'u' :: 'l' :: 'l' :: rest => some (.null, rest)
    | 't' :: 'r' :: 'u' :: 'e' :: rest => some (.bool true, rest)
    | 'f' :: 'a' :: 'l' :: 's' :: 'e' :: rest => some (.bool false, rest)
    | '"' :: rest =>
      match parseStrChars rest with
      | none => none
      | some (s, r) => some (.str (String.mk s), r)
    | '[' :: rest =>
      (match skipWs rest with
       | ']' :: r2 => some (.arr [], r2)
       | _ =>
         match parseElems fuel rest with
         | none => none
         | some (es, r2) => some (.arr es, r2))
    | '{' :: rest =>
      (match skipWs rest with
       | '}' :: r2 => some (.obj [], r2)
       | _ =>
         match parseFields fuel rest with
         | none => none
         | some (fs, r2) => some (.obj fs, r2))
    | '-' :: rest =>
      let ds := rest.takeWhile Char.isDigit
      if ds = [] then none
      else some (.num (-(digitsToNat ds : Int)), rest.dropWhile Char.isDigit)
    | c :: rest =>
      if c.isDigit then
        let ds := (c :: rest).takeWhile Char.isDigit
        some (.num (digitsToNat ds : Int), (c :: rest).dropWhile Char.isDigit)
      else none
    | [] => none

/-- Parse the comma-separated elements of a (nonempty) JSON array, up to and
including the closing bracket. -/
def parseElems : Nat → List Char → Option (List Json × List Char)
  | 0, _ => none
  | Nat.succ fuel, cs =>
    match parseVal fuel cs with
    | none => none
    | some (v, r) =>
      match skipWs r with
      | ',' :: r2 =>
        (match parseElems fuel r2 with
         | none => none
         | some (es, r3) => some (v :: es, r3))
      | ']' :: r2 => some ([v], r2)
      | _ => none

/-- Parse the comma-separated members of a (nonempty) JSON object, up to and
including the closing brace. -/
def parseFields : Nat → List Char → Option (List (String × Json) × List Char)
  | 0, _ => none
  | Nat.succ fuel, cs =>
    match skipWs cs with
    | '"' :: rest =>
      match parseStrChars rest with
      | none => none
      | some (k, r) =>
        match skipWs r with
        | ':' :: r2 =>
          (match parseVal fuel r2 with
           | none => none
           | some (v, r3) =>
             match skipWs r3 with
             | ',' :: r4 =>
               (match parseFields fuel r4 with
                | none => none
                | some (fs, r5) => some ((String.mk k, v) :: fs, r5))
             | '}' :: r4 => some ([(String.mk k, v)], r4)
             | _ => none)
        | _ => none
    | _ => none

end

/-- Model of `JSON.parse`: `none` when `JSON.parse` would throw.  The whole
input (apart from trailing whitespace) must be consumed. -/
def parseJson (s : String) : Option Json :=
  match parseVal (2 * s.data.length + 2) s.data with
  | none => none
  | some (v, rest) => if skipWs rest = [] then some v else none

/-- Escape one character for a JSON string literal, as `JSON.stringify`
does for the characters occurring in the program's data. -/
def escapeChar (c : Char) : List Char :=
  if c = '"' then ['\\', '"']
  else if c = '\\' then ['\\', '\\']
  else if c = '\n' then ['\\', 'n']
  else if c = '\t' then ['\\', 't']
  else if c = '\r' then ['\\', 'r']
  else [c]

/-- Escape a string for embedding in JSON output. -/
def escapeStr (s : String) : String :=
  String.mk (s.data.foldr (fun c acc => escapeChar c ++ acc) [])

mutual

/-- Model of `JSON.stringify` (no pretty-printing, insertion-order keys). -/
def Json.stringify : Json → String
  | .null => "null"
  | .bool true => "true"
  | .bool false => "false"
  | .num n => toString n
  | .str s => "\"" ++ escapeStr s ++ "\""
  | .arr es => "[" ++ String.intercalate "," (stringifyElems es) ++ "]"
  | .obj fs => "\x7b" ++ String.intercalate "," (stringifyFields fs) ++ "\x7d"

/-- Render each array element. -/
def stringifyElems : List Json → List String
  | [] => []
  | e :: es => Json.stringify e :: stringifyElems es

/-- Render each object member as `"key":value`. -/
def stringifyFields : List (String × Json) → List String
  | [] => []
  | (k, v) :: fs => ("\"" ++ escapeStr k ++ "\":" ++ Json.stringify v) :: stringifyFields fs

end

/-! ### JavaScript string helpers used by the embedded code -/

/-- JS `String.prototype.trim` (over the whitespace occurring in SSE data). -/
def trimStr (s : String) : String :=
  String.mk (((s.data.dropWhile isWsChar).reverse.dropWhile isWsChar).reverse)

/-- Whether `pat` is a leading segment of `s` (JS `startsWith`). -/
def startsWithStr (s pat : String) : Bool :=
  s.data.take pat.data.length = pat.data

/-- Occurrence test on character lists. -/
def hasSubChars : List Char → List Char → Bool
  | hay, pat =>
    if hay.take pat.length = pat then true
    else
      match hay with
      | [] => false
      | _ :: t => hasSubChars t pat

/-- JS `String.prototype.includes`: substring occurrence. -/
def hasSubStr (s pat : String) : Bool :=
  hasSubChars s.data pat.data

/-- JS `String.prototype.toLowerCase` (ASCII, as used for model ids). -/
def lowerStr (s : String) : String :=
  String.mk (s.data.map Char.toLower)

/-- JS `s.slice(0, -1)`: the string without its final character. -/
def strDropLast (s : String) : String :=
  String.mk s.data.dropLast

/-- JS `s.slice(6)`: the string without its first six characters. -/
def strDropSix (s : String) : String :=
  String.mk (s.data.drop 6)

/-- JS `s.split(sep)` for a single-character separator (always a nonempty
list; keeps empty pieces). -/
def splitOnChar (sep : Char) : List Char → List (List Char)
  | [] => [[]]
  | c :: cs =>
    if c = sep then [] :: splitOnChar sep cs
    else
      match splitOnChar sep cs with
      | [] => [[c]]
      | l :: ls => (c :: l) :: ls

/-- JS `buffer.split("\n")`. -/
def splitNl : List Char → List (List Char) :=
  splitOnChar '\n'

/-- Total character length of a list of strings (JS accumulates them with
`+=` and takes `.length` of the concatenation). -/
def sumLens : List String → Nat
  | [] => 0
  | s :: ss => s.data.length + sumLens ss

/-- Truthiness of an optional JS string: `undefined` and `""` are falsy. -/
def optStrTruthy : Option String → Bool
  | some s => !(s = "")
  | none => false

/-! ### Data model (src/types.ts) -/

/-- Generic tool call (`ToolCall` in src/types.ts): `args` is the structured
value produced by `JSON.parse`.  The optional `signature` field is never
touched by the verified code paths and is omitted. -/
structure ToolCall where
  id : String
  name : String
  args : Json
  deriving Repr

/-! ### Streaming transcoder (src/proxy-server.ts, /v1/messages)

The `/v1/messages` route opens a `ReadableStream`; the handler's `onChunk`
callback emits `message_start` / `content_block_start(0)` on the first text
chunk and a `content_block_delta(0)` for every chunk; after `generate`
resolves, the tool-use blocks, `message_delta`, `message_stop` and the
`data: [DONE]` terminator are enqueued (lines 184-226). -/

/-- One canonical SSE frame enqueued on the outbound stream.  The
`message_start` envelope payload (message id, model, zeroed usage) is
constant boilerplate and carries no claim-relevant data. -/
inductive Frame where
  | messageStart : Frame
  | blockStartText (index : Nat) : Frame
  | blockStartTool (index : Nat) (id : String) (name : String) (input : Json) : Frame
  | blockDelta (index : Nat) (text : String) : Frame
  | blockStop (index : Nat) : Frame
  | messageDelta (stopReason : String) (outputTokens : Nat) : Frame
  | messageStop : Frame
  | done : Frame
  deriving Repr

/-- Mutable locals of the `/v1/messages` route captured by the stream
closure: `isFirstTextChunk`, the length of `streamedContent`, and the frames
enqueued so far. -/
structure TxState where
  isFirstTextChunk : Bool
  streamedLen : Nat
  frames : List Frame
  deriving Repr

/-- The `onChunk` callback passed to `handler.generate` (lines 190-199):
on the first chunk it enqueues `message_start` and `content_block_start`
for the text block at index 0, then it always enqueues one
`content_block_delta` at index 0 carrying the chunk verbatim. -/
def txOnChunk (st : TxState) (chunk : String) : TxState :=
  let st1 :=
    if st.isFirstTextChunk then
      { st with frames := st.frames ++ [Frame.messageStart, Frame.blockStartText 0],
                isFirstTextChunk := false }
    else st
  { st1 with frames := st1.frames ++ [Frame.blockDelta 0 chunk],
             streamedLen := st1.streamedLen + chunk.data.length }

/-- Tool-use block emission (lines 209-213): for each finalized tool call,
`++currentToolUseIndex` (starting from 0) names the block index, and
`content_block_start` is immediately followed by `content_block_stop`. -/
def toolPairs : Nat → List ToolCall → List Frame
  | _, [] => []
  | i, tc :: rest =>
    Frame.blockStartTool (i + 1) tc.id tc.name tc.args ::
      Frame.blockStop (i + 1) :: toolPairs (i + 1) rest

/-- Output-token estimate of the final `message_delta` (line 222):
`streamedContent.length > 0 ? Math.ceil(streamedContent.length / 4) : 1`.
`Math.ceil (n / 4)` for a natural `n` is `(n + 3) / 4`. -/
def outTok (n : Nat) : Nat :=
  if n > 0 then (n + 3) / 4 else 1

/-- Frames enqueued after `generate` resolves (lines 204-224): close the
text block if one was opened, emit the tool-use pairs, then `message_delta`
(stop_reason `end_turn`), `message_stop` and the `data: [DONE]` terminator. -/
def txFinish (st : TxState) (toolCalls : List ToolCall) : List Frame :=
  let mid :=
    if toolCalls.length > 0 then
      (if !st.isFirstTextChunk then [Frame.blockStop 0] else []) ++ toolPairs 0 toolCalls
    else
      (if !st.isFirstTextChunk then [Frame.blockStop 0] else [])
  st.frames ++ mid ++
    [Frame.messageDelta "end_turn" (outTok st.streamedLen), Frame.messageStop, Frame.done]

/-- Complete canonical frame sequence emitted for one request whose handler
produced the text chunks `chunks` (in `onChunk` order) and the finalized
tool calls `toolCalls`. -/
def emitStream (chunks : List String) (toolCalls : List ToolCall) : List Frame :=
  txFinish (chunks.foldl txOnChunk ⟨true, 0, []⟩) toolCalls

/-! ### Backend router (src/proxy-server.ts, getHandlerForRequest)

JS truthiness: an unset or empty-string mapping/default is falsy, so the
embedding represents "unset or empty" uniformly as `none`. -/

/-- Per-tier model overrides (`modelMap` parameter of `createProxyServer`). -/
structure ModelMap where
  opus : Option String
  sonnet : Option String
  haiku : Option String
  subagent : Option String
  deriving Repr, DecidableEq

/-- The handler returned for a request. -/
inductive Handler where
  | native : Handler
  | geminiNative : Handler
  | openrouter (target : String) : Handler
  deriving Repr, DecidableEq

/-- Substring mapping rules (lines 59-67): checked against the lower-cased
requested id, `opus` then `sonnet` then `haiku`; a tier applies only when
its substring matches and its override is set. -/
def applyModelMap (mm : ModelMap) (req : String) (t : String) : String :=
  if hasSubStr req "opus" && mm.opus.isSome then mm.opus.getD t
  else if hasSubStr req "sonnet" && mm.sonnet.isSome then mm.sonnet.getD t
  else if hasSubStr req "haiku" && mm.haiku.isSome then mm.haiku.getD t
  else t

/-- Resolution of the working target id (lines 56-67): start from the global
default model if configured, else the requested id; then apply the
substring mapping rules when a model map was provided. -/
def resolveTarget (defaultModel : Option String) (mm : Option ModelMap)
    (requested : String) : String :=
  let t := defaultModel.getD requested
  match mm with
  | none => t
  | some m => applyModelMap m (lowerStr requested) t

/-- `getHandlerForRequest` (lines 49-94): monitor mode always returns the
native pass-through handler; otherwise the target id is resolved and the
handler chosen by the explicit Gemini flag, the Gemini id heuristics, the
no-slash native heuristic, or the OpenRouter fallback. -/
def getHandlerForRequest (monitorMode : Bool) (defaultModel : Option String)
    (mm : Option ModelMap) (useGeminiNative : Bool) (geminiAvailable : Bool)
    (requested : String) : Handler :=
  if monitorMode then .native
  else
    let target := resolveTarget defaultModel mm requested
    if useGeminiNative && geminiAvailable then .geminiNative
    else if (hasSubStr target "gemini" || hasSubStr target "google/") && geminiAvailable then
      .geminiNative
    else if !(hasSubStr target "/") then .native
    else .openrouter target

/-! ### OpenRouter stream handler
(src/handlers/openrouter-handler.ts, handleStreamingResponse)

The handler reads the SSE body, buffers partial lines, parses each
`data: {json}` line, relays text deltas through `onChunk`, and assembles
tool calls by eagerly `JSON.parse`-ing the name-carrying fragment's
arguments and splicing later fragments into the re-serialized value
(lines 169-246). -/

/-- Lookup of a key among an object's fields (first occurrence). -/
def jGetGo (k : String) : List (String × Json) → Option Json
  | [] => none
  | (k2, v) :: fs => if k2 = k then some v else jGetGo k fs

/-- First value of an object field (`obj.key` access on parsed JSON). -/
def jGet : Json → String → Option Json
  | .obj fs, k => jGetGo k fs
  | _, _ => none

/-- Optional-chaining field access (`x?.key`). -/
def jGetO : Option Json → String → Option Json
  | some j, k => jGet j k
  | none, _ => none

/-- A field read as a string, when present with that type. -/
def jStr : Option Json → Option String
  | some (.str s) => some s
  | _ => none

/-- The elements of a field read as an array, when present with that type. -/
def jArrElems : Option Json → Option (List Json)
  | some (.arr es) => some es
  | _ => none

/-- One entry of `delta.tool_calls`: `tc.id`, `tc.function?.name`,
`tc.function?.arguments`. -/
structure ToolCallDelta where
  id : Option String
  fnName : Option String
  fnArgs : Option String
  deriving Repr, DecidableEq

/-- The claim-relevant fields of `chunk.choices?.[0]?.delta`. -/
structure StreamDelta where
  content : Option String
  toolCallDeltas : Option (List ToolCallDelta)
  deriving Repr, DecidableEq

/-- Extraction of one `delta.tool_calls` entry from its parsed JSON. -/
def toolCallDeltaOfJson (j : Json) : ToolCallDelta :=
  { id := jStr (jGet j "id")
  , fnName := jStr (jGetO (jGet j "function") "name")
  , fnArgs := jStr (jGetO (jGet j "function") "arguments") }

/-- `chunk.choices?.[0]?.delta`, guarded by `if (delta)` (lines 185-186):
`none` when the path is missing, so the chunk contributes nothing. -/
def deltaOfJson (chunk : Json) : Option StreamDelta :=
  match jGetO ((jArrElems (jGet chunk "choices")).bind List.head?) "delta" with
  | some (Json.obj fs) =>
    some { content := jStr (jGet (Json.obj fs) "content")
         , toolCallDeltas :=
             (jArrElems (jGet (Json.obj fs) "tool_calls")).map (List.map toolCallDeltaOfJson) }
  | _ => none

/-- Accumulation state of `handleStreamingResponse`: the relayed text, the
tool-call array, whether `currentToolCall` is non-null (it always aliases
the last pushed array element), the sequence of `onChunk` arguments, and a
counter standing in for the `tool_${Date.now()}_${generateUniqueId()}`
fallback ids. -/
structure ORState where
  fullContent : String
  toolCalls : List ToolCall
  hasCurrent : Bool
  chunksOut : List String
  nextAutoId : Nat
  deriving Repr

/-- Deterministic stand-in for the generated fallback tool-call id. -/
def autoId (n : Nat) : String :=
  "tool_auto_" ++ toString n

/-- Replace the args of the last pushed tool call (the JS code mutates
`currentToolCall.args`, and `currentToolCall` aliases the last element of
`toolCalls`). -/
def setLastArgs : List ToolCall → Json → List ToolCall
  | [], _ => []
  | [tc], v => [{ tc with args := v }]
  | tc :: rest, v => tc :: setLastArgs rest v

/-- Processing of one `delta.tool_calls` entry (lines 203-220).  The `Bool`
result is `true` when the JS code throws (a failed `JSON.parse`), which
aborts the rest of the line's processing but keeps prior mutations; the
exception is caught by the per-line `catch`. -/
def processToolCallDelta (st : ORState) (tc : ToolCallDelta) : ORState × Bool :=
  if optStrTruthy tc.fnName then
    -- JSON.parse(tc.function.arguments || "{}")
    let argText := match tc.fnArgs with
      | some s => if s = "" then "\x7b\x7d" else s
      | none => "\x7b\x7d"
    match parseJson argText with
    | none => (st, true)
    | some v =>
      let (id, nextAutoId) :=
        match tc.id with
        | some i => if i = "" then (autoId st.nextAutoId, st.nextAutoId + 1) else (i, st.nextAutoId)
        | none => (autoId st.nextAutoId, st.nextAutoId + 1)
      ({ st with toolCalls := st.toolCalls ++ [⟨id, tc.fnName.getD "", v⟩],
                 hasCurrent := true, nextAutoId := nextAutoId }, false)
  else if st.hasCurrent && optStrTruthy tc.fnArgs then
    match st.toolCalls.getLast? with
    | none => (st, false)
    | some last =>
      -- JSON.stringify(currentToolCall.args).slice(0, -1) + tc.function.arguments + "}"
      let newArgs := strDropLast (Json.stringify last.args) ++ tc.fnArgs.getD "" ++ "\x7d"
      match parseJson newArgs with
      | none => (st, true)
      | some v => ({ st with toolCalls := setLastArgs st.toolCalls v }, false)
  else (st, false)

/-- Sequential processing of `delta.tool_calls`, aborting on a throw. -/
def processToolCallList : ORState → List ToolCallDelta → ORState × Bool
  | st, [] => (st, false)
  | st, tc :: rest =>
    let r := processToolCallDelta st tc
    if r.2 then r else processToolCallList r.1 rest

/-- Processing of one parsed delta (lines 196-221): a truthy `delta.content`
is relayed through `onChunk` and appended to `fullContent`, then the
tool-call entries are processed. -/
def processDelta (st : ORState) (d : StreamDelta) : ORState × Bool :=
  let st1 :=
    match d.content with
    | some txt =>
      if txt = "" then st
      else { st with chunksOut := st.chunksOut ++ [txt],
                     fullContent := st.fullContent ++ txt }
    | none => st
  match d.toolCallDeltas with
  | some tcs => processToolCallList st1 tcs
  | none => (st1, false)

/-- Processing of one SSE line (lines 179-225).  The `Bool` result is
`true` for `data: [DONE]`, which breaks out of the current batch's line
loop.  Lines that are blank, lack the `data: ` marker, or whose payload
fails `JSON.parse` are skipped; a throw inside the delta processing is
caught here and likewise only skips the rest of this line. -/
def processLine (st : ORState) (line : String) : ORState × Bool :=
  if trimStr line = "" || !(startsWithStr line "data: ") then (st, false)
  else
    let dataStr := strDropSix line
    if dataStr = "[DONE]" then (st, true)
    else
      match parseJson dataStr with
      | none => (st, false)
      | some chunk =>
        match deltaOfJson chunk with
        | none => (st, false)
        | some d => ((processDelta st d).1, false)

/-- The `for (const line of lines)` loop of one read iteration. -/
def processLines : ORState → List String → ORState
  | st, [] => st
  | st, l :: ls =>
    let r := processLine st l
    if r.2 then r.1 else processLines r.1 ls

/-- Reader-loop state: the accumulation state plus the partial-line buffer. -/
structure NetState where
  st : ORState
  buffer : String
  deriving Repr

/-- One `reader.read()` iteration (lines 172-227): append the decoded chunk
to the buffer, split on newlines, keep the final partial line buffered, and
process the complete lines. -/
def processNetChunk (ns : NetState) (chunk : String) : NetState :=
  let parts := splitNl (ns.buffer.data ++ chunk.data)
  let lines := parts.dropLast.map String.mk
  let buf := String.mk ((parts.getLast?).getD [])
  { st := processLines ns.st lines, buffer := buf }

/-- Initial accumulation state (lines 164-167). -/
def initORState : ORState :=
  { fullContent := "", toolCalls := [], hasCurrent := false,
    chunksOut := [], nextAutoId := 0 }

/-- `handleStreamingResponse` on the decoded network chunks: the
`GenerationResult` is the final state's `fullContent` and `toolCalls`
(the trailing unterminated buffer is never processed). -/
def handleStreamingResponse (netChunks : List String) : ORState :=
  (netChunks.foldl processNetChunk ⟨initORState, ""⟩).st

/-- The /v1/messages pipeline over the OpenRouter handler: the handler's
`onChunk` calls drive the transcoder's text frames synchronously, and the
finalized tool calls of its result drive the tool-use blocks and tail. -/
def pipelineFrames (netChunks : List String) : List Frame :=
  let r := handleStreamingResponse netChunks
  emitStream r.chunksOut r.toolCalls

/-! ### Gemini native handler
(src/handlers/gemini-native-handler.ts, generate)

`generate` maps each canonical message to a Gemini `{role, parts}` record:
`user → "user"`, `assistant → "model"`, `tool → "function"`, and any other
role (system) to `undefined`; messages whose mapped role is `undefined` are
filtered out (line 87).  If the last mapped message is a user message it is
popped and its joined text becomes the `sendMessageStream` argument, with
`messages[messages.length - 1].content` as the fallback (lines 92-127). -/

/-- The four canonical roles (`Message.role` in src/types.ts). -/
inductive Role where
  | user | assistant | system | tool
  deriving Repr, DecidableEq

/-- A Gemini chat role. -/
inductive GRole where
  | user | model | function
  deriving Repr, DecidableEq

/-- Role mapping of lines 26-29; system (and only system) maps to
`undefined`. -/
def mapGeminiRole : Role → Option GRole
  | .user => some .user
  | .assistant => some .model
  | .tool => some .function
  | .system => none

/-- One `GenericContentBlock` (src/types.ts): the tag plus its optional
fields.  `image_url` holds the inner `url`; `input` and `content` are
structured values. -/
structure ContentBlock where
  type : String
  text : Option String
  image_url : Option String
  id : Option String
  name : Option String
  input : Option Json
  tool_use_id : Option String
  content : Option Json
  deriving Repr

/-- A canonical message's content: a plain string or a block sequence. -/
inductive MsgContent where
  | str (s : String)
  | blocks (bs : List ContentBlock)
  deriving Repr

/-- One canonical `Message` (src/types.ts). -/
structure Message where
  role : Role
  content : MsgContent
  tool_calls : Option (List ToolCall)
  tool_call_id : Option String
  deriving Repr

/-- JS truthiness of a structured value. -/
def jsonTruthy : Json → Bool
  | .null => false
  | .bool b => b
  | .num n => !(n = 0)
  | .str s => !(s = "")
  | .arr _ => true
  | .obj _ => true

/-- JS `a || b` over two optional strings, `none` when both are falsy. -/
def firstTruthy (a b : Option String) : Option String :=
  if optStrTruthy a then a else if optStrTruthy b then b else none

/-- The image part of lines 41-46: `data` is `url.split(',')[1]`; an
`undefined` member is omitted, as `JSON.stringify` omits it. -/
def imagePart (url : String) : Json :=
  let dataField :=
    match (splitOnChar ',' url.data).get? 1 with
    | some d => [("data", Json.str (String.mk d))]
    | none => []
  .obj [("image", .obj [("inlineData", .obj ([("mimeType", Json.str "image/png")] ++ dataField))])]

/-- The parts contributed by one content block (lines 35-67), given the
message's `tool_call_id`. -/
def blockParts (toolCallId : Option String) (b : ContentBlock) : List Json :=
  if b.type = "text" && optStrTruthy b.text then
    [.obj [("text", Json.str (b.text.getD ""))]]
  else if b.type = "image_url" && b.image_url.isSome then
    [imagePart (b.image_url.getD "")]
  else if b.type = "tool_use" && optStrTruthy b.name && (b.input.map jsonTruthy).getD false then
    [.obj [("functionCall", .obj [("name", Json.str (b.name.getD "")), ("args", b.input.getD .null)])]]
  else if b.type = "tool_result" && optStrTruthy toolCallId
      && (b.content.map jsonTruthy).getD false then
    let nmField : List (String × Json) :=
      match firstTruthy b.id b.tool_use_id with
      | some s => [("name", Json.str s)]
      | none => []
    [.obj [("functionResponse",
            .obj (nmField ++ [("response", .obj (nmField ++ [("content", b.content.getD .null)]))]))]]
  else []

/-- The full parts array of one message: string content becomes a single
text part, block content contributes per-block parts, and an assistant
message's `tool_calls` append `functionCall` parts (lines 31-81). -/
def geminiPartsOf (m : Message) : List Json :=
  let base :=
    match m.content with
    | .str s => [Json.obj [("text", Json.str s)]]
    | .blocks bs => bs.flatMap (blockParts m.tool_call_id)
  let extra :=
    match m.role, m.tool_calls with
    | .assistant, some tcs =>
      if tcs.length > 0 then
        tcs.map (fun tc => Json.obj [("functionCall",
          .obj [("name", Json.str tc.name), ("args", tc.args)])])
      else []
    | _, _ => []
  base ++ extra

/-- One mapped Gemini message `{role, parts}`. -/
structure GMsg where
  role : Option GRole
  parts : List Json
  deriving Repr

/-- Whether a message's role is `system`. -/
def isSystemRole : Role → Bool
  | .system => true
  | _ => false

/-- The mapped record of one message (lines 25-87, before filtering). -/
def geminiMapMsg (m : Message) : GMsg :=
  ⟨mapGeminiRole m.role, geminiPartsOf m⟩

/-- `geminiMessages` (lines 25-87): map every message and drop those whose
mapped role is `undefined`. -/
def geminiMessages (msgs : List Message) : List GMsg :=
  (msgs.map geminiMapMsg).filter (fun g => g.role.isSome)

/-- `lastMessage.parts.map(part => part.text || JSON.stringify(part)).join("")`
(line 97). -/
def geminiJoinParts (parts : List Json) : String :=
  String.join (parts.map (fun p =>
    match jGet p "text" with
    | some (.str s) => if s = "" then Json.stringify p else s
    | _ => Json.stringify p))

/-- The request actually dispatched: the chat `history` and the
`sendMessageStream` argument (lines 92-127).  The result is `none` exactly
when the JS code would throw (`messages` empty and no usable popped user
text, so `messages[messages.length - 1].content` dereferences
`undefined`). -/
def geminiRequest (msgs : List Message) : Option (List GMsg × MsgContent) :=
  let gms := geminiMessages msgs
  let popped : List GMsg × Option String :=
    match gms.getLast? with
    | some gm =>
      if gm.role = some .user then
        (gms.dropLast, if gm.parts.length > 0 then some (geminiJoinParts gm.parts) else none)
      else (gms, none)
    | none => (gms, none)
  let fallb : Option MsgContent := (msgs.getLast?).map (fun m => m.content)
  let sendArg : Option MsgContent :=
    match popped.2 with
    | some s => if s = "" then fallb else some (.str s)
    | none => fallb
  sendArg.map (fun c => (popped.1, c))

/-! ### Frame-sequence analysis helpers -/

/-- The frames of a text-only envelope head: nothing when no text chunk
arrived, else `message_start`, `content_block_start(0)`, one delta per
chunk, `content_block_stop(0)`. -/
def textEnvFrames (chunks : List String) : List Frame :=
  match chunks with
  | [] => []
  | c :: cs =>
    [Frame.messageStart, Frame.blockStartText 0] ++
      (c :: cs).map (Frame.blockDelta 0) ++ [Frame.blockStop 0]

/-- The indices of the `tool_use` `content_block_start` frames, in order. -/
def toolStartIdxs : List Frame → List Nat
  | [] => []
  | Frame.blockStartTool i _ _ _ :: rest => i :: toolStartIdxs rest
  | _ :: rest => toolStartIdxs rest

/-- Whether every `tool_use` `content_block_start` is immediately followed
by the `content_block_stop` of the same index. -/
def toolPairsImmediate : List Frame → Bool
  | [] => true
  | Frame.blockStartTool i _ _ _ :: Frame.blockStop j :: rest =>
    i = j && toolPairsImmediate rest
  | Frame.blockStartTool _ _ _ _ :: _ => false
  | _ :: rest => toolPairsImmediate rest

/-- Whether a frame belongs to the closing envelope tail. -/
def isTailFrame : Frame → Bool
  | Frame.messageDelta _ _ => true
  | Frame.messageStop => true
  | Frame.done => true
  | _ => false

/-! ### Spec-side router description (for the refinement claim C6)

Modelled from the spec's words: "the resolved target model equals the
configured override for the first tier among opus, sonnet, haiku (checked
in that order against the lower-cased requested id) whose substring matches
and whose override is configured; if a tier substring matches but its
override is unset, that match is skipped and the next tier is checked; if
no tier applies, the resolved target is the global default model when
configured, else the requested id." -/

/-- The three tiers in their fixed check order, with their overrides. -/
def specTiers (mm : ModelMap) : List (String × Option String) :=
  [("opus", mm.opus), ("sonnet", mm.sonnet), ("haiku", mm.haiku)]

/-- Target resolution as the spec words it: the first tier whose substring
matches the lower-cased requested id and whose override is configured
gives the target; otherwise the global default when configured, else the
requested id. -/
def specResolveTarget (defaultModel : Option String) (mm : Option ModelMap)
    (requested : String) : String :=
  let fallb := defaultModel.getD requested
  match mm with
  | none => fallb
  | some m =>
    match (specTiers m).find? (fun p => hasSubStr (lowerStr requested) p.1 && p.2.isSome) with
    | some (_, some ov) => ov
    | _ => fallb

/-! ### Concrete stream fixtures -/

/-- A backend chunk carrying a name-bearing tool-call fragment. -/
def toolNameChunkJson (id name args : String) : Json :=
  .obj [("choices", .arr [.obj [("delta", .obj [("tool_calls", .arr [.obj
    [("id", .str id), ("function", .obj [("name", .str name), ("arguments", .str args)])]])])]])]

/-- A backend chunk carrying an arguments-only tool-call fragment. -/
def toolArgsChunkJson (args : String) : Json :=
  .obj [("choices", .arr [.obj [("delta", .obj [("tool_calls", .arr [.obj
    [("function", .obj [("arguments", .str args)])]])])]])]

/-- A backend chunk carrying a text delta. -/
def textChunkJson (txt : String) : Json :=
  .obj [("choices", .arr [.obj [("delta", .obj [("content", .str txt)])]])]

/-- An SSE data line for a JSON chunk, newline-terminated. -/
def dataLine (j : Json) : String :=
  "data: " ++ Json.stringify j ++ "\n"

/-- The stream terminator line. -/
def doneLine : String :=
  "data: [DONE]\n"

/-- C1 failing input: the JSON-arguments string of one tool call, split
into the two concatenable fragments delivered by the backend. -/
def c1frag1 : String := "\x7b\"a\":"

/-- Second fragment of the C1 failing input. -/
def c1frag2 : String := "1\x7d"

/-- The C1 stream: the first fragment carries the function name, the
second carries only argument text, then the terminator. -/
def c1input : List String :=
  [dataLine (toolNameChunkJson "call_1" "f" c1frag1),
   dataLine (toolArgsChunkJson c1frag2), doneLine]

/-- C8 input: the name-carrying fragment holds a complete JSON object and
a later fragment is junk, so the accumulated argument text is
unparseable. -/
def c8input : List String :=
  [dataLine (toolNameChunkJson "call_1" "f" "\x7b\"a\":1\x7d"),
   dataLine (toolArgsChunkJson "zzz"), doneLine]

/-- A consolidated leading system message. -/
def sysMsg : Message :=
  ⟨Role.system, MsgContent.str "SYS", none, none⟩

/-- A plain user message. -/
def userHiMsg : Message :=
  ⟨Role.user, MsgContent.str "hi", none, none⟩

/-- A message list consisting only of the consolidated system message. -/
def sysOnlyMsgs : List Message :=
  [sysMsg]

/-! ## Theorems -/

set_option maxRecDepth 100000

/-! ### Transcoder structure -/

theorem foldl_txOnChunk (cs : List String) (n : Nat) (fs : List Frame) :
    cs.foldl txOnChunk ⟨false, n, fs⟩ =
      ⟨false, n + sumLens cs, fs ++ cs.map (Frame.blockDelta 0)⟩ := by
  induction cs generalizing n fs with
  | nil => simp [sumLens]
  | cons c cs ih =>
    simp only [List.foldl_cons, txOnChunk, Bool.false_eq_true, if_false, List.map_cons]
    rw [ih]
    simp [sumLens, Nat.add_assoc]

/-- Normal form of the emitted frame sequence: the text envelope head, the
tool-use pairs, then the fixed closing tail. -/
theorem emitStream_eq (chunks : List String) (tcs : List ToolCall) :
    emitStream chunks tcs =
      textEnvFrames chunks ++ toolPairs 0 tcs ++
        [Frame.messageDelta "end_turn" (outTok (sumLens chunks)),
         Frame.messageStop, Frame.done] := by
  cases chunks with
  | nil =>
    cases tcs <;>
      simp [emitStream, txFinish, textEnvFrames, toolPairs, sumLens]
  | cons c cs =>
    have h1 : (c :: cs).foldl txOnChunk ⟨true, 0, []⟩ =
        ⟨false, c.data.length + sumLens cs, [Frame.messageStart, Frame.blockStartText 0] ++
          (c :: cs).map (Frame.blockDelta 0)⟩ := by
      simp only [List.foldl_cons, txOnChunk, if_true, List.map_cons]
      rw [foldl_txOnChunk]
      simp
    cases tcs <;>
      simp [emitStream, h1, txFinish, textEnvFrames, toolPairs, sumLens,
        List.append_assoc]

theorem toolStartIdxs_append (a b : List Frame) :
    toolStartIdxs (a ++ b) = toolStartIdxs a ++ toolStartIdxs b := by
  induction a with
  | nil => simp [toolStartIdxs]
  | cons f rest ih => cases f <;> simp [toolStartIdxs, ih]

theorem toolStartIdxs_map_delta (l : List String) :
    toolStartIdxs (l.map (Frame.blockDelta 0)) = [] := by
  induction l with
  | nil => simp [toolStartIdxs]
  | cons c cs ih => simp [toolStartIdxs, ih]

theorem toolStartIdxs_textEnv (chunks : List String) :
    toolStartIdxs (textEnvFrames chunks) = [] := by
  cases chunks with
  | nil => simp [textEnvFrames, toolStartIdxs]
  | cons c cs =>
    simp [textEnvFrames, toolStartIdxs, toolStartIdxs_append, toolStartIdxs_map_delta]

theorem toolStartIdxs_toolPairs (tcs : List ToolCall) (k : Nat) :
    toolStartIdxs (toolPairs k tcs) = List.range' (k + 1) tcs.length := by
  induction tcs generalizing k with
  | nil => simp [toolPairs, toolStartIdxs, List.range']
  | cons tc rest ih => simp [toolPairs, toolStartIdxs, List.range', ih]

theorem toolPairsImmediate_map_delta (l : List String) (rest : List Frame) :
    toolPairsImmediate (l.map (Frame.blockDelta 0) ++ rest) = toolPairsImmediate rest := by
  induction l with
  | nil => simp
  | cons c cs ih => simpa [toolPairsImmediate] using ih

theorem toolPairsImmediate_toolPairs (tcs : List ToolCall) (k : Nat) (rest : List Frame)
    (h : toolPairsImmediate rest = true) :
    toolPairsImmediate (toolPairs k tcs ++ rest) = true := by
  induction tcs generalizing k with
  | nil => simpa [toolPairs]
  | cons tc tcs ih => simp [toolPairs, toolPairsImmediate, ih]

theorem toolPairsImmediate_emitStream (chunks : List String) (tcs : List ToolCall) :
    toolPairsImmediate (emitStream chunks tcs) = true := by
  rw [emitStream_eq]
  have htail : toolPairsImmediate
      [Frame.messageDelta "end_turn" (outTok (sumLens chunks)),
       Frame.messageStop, Frame.done] = true := by
    simp [toolPairsImmediate]
  cases chunks with
  | nil =>
    simpa [textEnvFrames] using toolPairsImmediate_toolPairs tcs 0 _ htail
  | cons c cs =>
    simp only [textEnvFrames, List.append_assoc, List.cons_append, List.nil_append]
    simp only [toolPairsImmediate, List.append_eq]
    rw [toolPairsImmediate_map_delta]
    simp only [toolPairsImmediate]
    exact toolPairsImmediate_toolPairs tcs 0 _ htail

theorem isTailFrame_textEnv (chunks : List String) (f : Frame)
    (h : f ∈ textEnvFrames chunks) : isTailFrame f = false := by
  cases chunks with
  | nil => simp [textEnvFrames] at h
  | cons c cs =>
    simp only [textEnvFrames, List.cons_append, List.nil_append, List.mem_cons,
      List.mem_append, List.mem_map, List.mem_singleton] at h
    rcases h with rfl | rfl | ⟨x, _, rfl⟩ | rfl | h <;> first | rfl | simp at h

theorem isTailFrame_toolPairs (tcs : List ToolCall) (k : Nat) (f : Frame)
    (h : f ∈ toolPairs k tcs) : isTailFrame f = false := by
  induction tcs generalizing k with
  | nil => simp [toolPairs] at h
  | cons tc rest ih =>
    simp [toolPairs] at h
    rcases h with h | h | h
    · simp [h, isTailFrame]
    · simp [h, isTailFrame]
    · exact ih (k + 1) h

/-- C2: for a backend event sequence with at least one text delta and zero
tool calls, the canonical frames are exactly `message_start`,
`content_block_start(0)`, one `content_block_delta(0)` per input delta in
arrival order carrying that delta's text, `content_block_stop(0)`,
`message_delta`, `message_stop`, the terminator, and nothing else. -/
theorem c2_text_only_stream (c : String) (cs : List String) :
    emitStream (c :: cs) [] =
      [Frame.messageStart, Frame.blockStartText 0] ++
        (c :: cs).map (Frame.blockDelta 0) ++
        [Frame.blockStop 0,
         Frame.messageDelta "end_turn" (outTok (sumLens (c :: cs))),
         Frame.messageStop, Frame.done] := by
  simp [emitStream_eq, textEnvFrames, toolPairs]

/-- C3: with zero text deltas and zero tool calls the code emits only
`message_delta`, `message_stop` and the terminator — `message_start` (and
hence the full envelope the claim requires) is never emitted, because it is
produced only inside the first-text-chunk callback. -/
theorem c3_empty_stream_eval :
    emitStream [] [] = [Frame.messageDelta "end_turn" 1, Frame.messageStop, Frame.done] ∧
    Frame.messageStart ∉ emitStream [] [] := by
  refine ⟨rfl, ?_⟩
  rw [show emitStream [] [] =
    [Frame.messageDelta "end_turn" 1, Frame.messageStop, Frame.done] from rfl]
  simp

/-- C4: with zero text deltas and two tool calls `A` then `B` the emitted
frames contain no block at index 0 and exactly the two tool-use pairs at
indices 1 and 2 in call order, each start immediately followed by its stop;
in general the tool-use block indices are exactly `1, …, n` — strictly
increasing positive naturals distinct from the text block index 0 — and
every tool-use start is immediately followed by its stop. -/
theorem c4_tool_blocks (A B : ToolCall) :
    emitStream [] [A, B] =
      [Frame.blockStartTool 1 A.id A.name A.args, Frame.blockStop 1,
       Frame.blockStartTool 2 B.id B.name B.args, Frame.blockStop 2,
       Frame.messageDelta "end_turn" 1, Frame.messageStop, Frame.done] ∧
    ∀ (chunks : List String) (tcs : List ToolCall),
      toolStartIdxs (emitStream chunks tcs) = List.range' 1 tcs.length ∧
      toolPairsImmediate (emitStream chunks tcs) = true := by
  refine ⟨rfl, fun chunks tcs => ⟨?_, toolPairsImmediate_emitStream chunks tcs⟩⟩
  rw [emitStream_eq]
  simp [toolStartIdxs_append, toolStartIdxs_textEnv, toolStartIdxs_toolPairs,
    toolStartIdxs]

/-- C9 counterexample: on a completed stream with zero streamed characters
the `message_delta` carries `output_tokens = 1`, not
`⌈0 / 4⌉ = 0` as the claim requires. -/
theorem c9_counterexample :
    emitStream [] [] = [Frame.messageDelta "end_turn" 1, Frame.messageStop, Frame.done] ∧
    (1 : Nat) ≠ (sumLens [] + 3) / 4 := by
  exact ⟨rfl, by decide⟩

/-- C9 amended: for every completed stream the `message_delta` frame
carries stop_reason `end_turn` and an output-token estimate equal to the
streamed character count divided by 4 rounded up when at least one
character was streamed, and 1 when none was; it is followed in order by
`message_stop` and the terminator frame (after which the transport is
closed), and no earlier frame is a `message_delta`, `message_stop` or
terminator. -/
theorem c9_amended (chunks : List String) (tcs : List ToolCall) :
    ∃ fs, emitStream chunks tcs =
        fs ++ [Frame.messageDelta "end_turn" (outTok (sumLens chunks)),
               Frame.messageStop, Frame.done] ∧
      ∀ f ∈ fs, isTailFrame f = false := by
  refine ⟨textEnvFrames chunks ++ toolPairs 0 tcs, ?_, ?_⟩
  · rw [emitStream_eq, List.append_assoc]
  · intro f hf
    rcases List.mem_append.mp hf with h | h
    · exact isTailFrame_textEnv chunks f h
    · exact isTailFrame_toolPairs tcs 0 f h

/-! ### Router -/

/-- C5: in monitor/forwarding mode the selected handler is the pass-through
native handler for every requested model id, regardless of the configured
default model, model mappings, or Gemini flags. -/
theorem c5_monitor_mode (defaultModel : Option String) (mm : Option ModelMap)
    (useGeminiNative geminiAvailable : Bool) (requested : String) :
    getHandlerForRequest true defaultModel mm useGeminiNative geminiAvailable requested =
      Handler.native := rfl

/-- C6: the code's target resolution coincides with the spec's description —
the override of the first tier among opus, sonnet, haiku (in that order,
against the lower-cased requested id) whose substring matches and whose
override is configured; a matching tier without an override is skipped in
favour of the next; with no applicable tier, the global default when
configured, else the requested id. -/
theorem c6_target_resolution (defaultModel : Option String) (mm : Option ModelMap)
    (requested : String) :
    resolveTarget defaultModel mm requested = specResolveTarget defaultModel mm requested := by
  cases mm with
  | none => rfl
  | some m =>
    rcases m with ⟨o, s, h, sub⟩
    simp only [resolveTarget, specResolveTarget, specTiers, applyModelMap]
    by_cases h1 : hasSubStr (lowerStr requested) "opus" <;>
      by_cases h2 : hasSubStr (lowerStr requested) "sonnet" <;>
      by_cases h3 : hasSubStr (lowerStr requested) "haiku" <;>
      cases o <;> cases s <;> cases h <;>
      simp [h1, h2, h3, List.find?]

/-! ### OpenRouter stream handler -/

theorem trimStr_ne_empty_of_data (bad : String)
    (h : startsWithStr bad "data: " = true) : ¬(trimStr bad = "") := by
  intro he
  rcases hb : bad.data with _ | ⟨c, r⟩
  · rw [startsWithStr, hb] at h
    simp [String.data] at h
  · rw [startsWithStr, hb] at h
    have hp : List.take "data: ".data.length (c :: r) = "data: ".data :=
      of_decide_eq_true h
    have hc : c = 'd' := by
      have h2 := congrArg List.head? hp
      simpa using h2
    rw [trimStr, hb] at he
    have hnil : (((c :: r).dropWhile isWsChar).reverse.dropWhile isWsChar).reverse = [] := by
      simpa using congrArg String.data he
    rw [List.reverse_eq_nil_iff, List.dropWhile_eq_nil_iff] at hnil
    have hdw : (c :: r).dropWhile isWsChar = c :: r := by
      rw [List.dropWhile_cons_of_neg]
      rw [hc]
      decide
    rw [hdw] at hnil
    have hmem : c ∈ (c :: r).reverse := by simp
    have := hnil c hmem
    rw [hc] at this
    simp [isWsChar] at this

theorem processLine_skip (st : ORState) (bad : String)
    (hdata : startsWithStr bad "data: " = true)
    (hnotdone : ¬(strDropSix bad = "[DONE]"))
    (hparse : parseJson (strDropSix bad) = none) :
    processLine st bad = (st, false) := by
  unfold processLine
  rw [if_neg, if_neg hnotdone, hparse]
  simp [trimStr_ne_empty_of_data bad hdata, hdata]

/-- C7: a line whose data payload fails to parse as JSON is skipped without
terminating processing — the final state is the same as if the line had
never arrived, so every subsequent well-formed chunk still contributes its
text deltas and tool-call updates — and the canonical response emitted from
that state still ends with `message_delta`, `message_stop` and the
terminator. -/
theorem c7_malformed_chunk_skipped (st : ORState) (pre post : List String) (bad : String)
    (hdata : startsWithStr bad "data: " = true)
    (hnotdone : ¬(strDropSix bad = "[DONE]"))
    (hparse : parseJson (strDropSix bad) = none) :
    processLines st (pre ++ bad :: post) = processLines st (pre ++ post) ∧
    ∃ fs, emitStream (processLines st (pre ++ bad :: post)).chunksOut
          (processLines st (pre ++ bad :: post)).toolCalls =
        fs ++ [Frame.messageDelta "end_turn"
                 (outTok (sumLens (processLines st (pre ++ bad :: post)).chunksOut)),
               Frame.messageStop, Frame.done] := by
  constructor
  · induction pre generalizing st with
    | nil =>
      simp only [List.nil_append, processLines,
        processLine_skip st bad hdata hnotdone hparse]
      simp
    | cons l ls ih =>
      simp only [List.cons_append, processLines]
      exact if_congr Iff.rfl rfl (ih _)
  · exact ⟨_, by rw [emitStream_eq, List.append_assoc]⟩

/-- C7 witness: a concrete stream with a malformed middle line. -/
theorem c7_witness :
    processLines initORState
        ([dataLine (textChunkJson "He")] ++ "data: oops" :: [dataLine (textChunkJson "llo")]) =
      processLines initORState
        ([dataLine (textChunkJson "He")] ++ [dataLine (textChunkJson "llo")]) ∧
    ∃ fs, emitStream (processLines initORState
            ([dataLine (textChunkJson "He")] ++ "data: oops" :: [dataLine (textChunkJson "llo")])).chunksOut
          (processLines initORState
            ([dataLine (textChunkJson "He")] ++ "data: oops" :: [dataLine (textChunkJson "llo")])).toolCalls =
        fs ++ [Frame.messageDelta "end_turn"
                 (outTok (sumLens (processLines initORState
                   ([dataLine (textChunkJson "He")] ++ "data: oops" :: [dataLine (textChunkJson "llo")])).chunksOut)),
               Frame.messageStop, Frame.done] :=
  c7_malformed_chunk_skipped initORState
    [dataLine (textChunkJson "He")] [dataLine (textChunkJson "llo")] "data: oops"
    (by decide) (by decide) rfl

/-- C1: the code evaluated at the failing input.  The unfragmented
JSON-arguments string parses to `{"a": 1}`, but its first fragment is not
itself valid JSON, so the handler's eager
`JSON.parse(tc.function.arguments || "{}")` throws, the chunk is skipped by
the catch, and the finalized result contains no tool call at all — the
round-trip the claim requires fails. -/
theorem c1_fragmented_args_eval :
    parseJson (c1frag1 ++ c1frag2) = some (Json.obj [("a", Json.num 1)]) ∧
    parseJson c1frag1 = none ∧
    (handleStreamingResponse c1input).toolCalls = [] :=
  ⟨rfl, rfl, rfl⟩

/-- C8 counterexample: a tool call whose accumulated argument text
(`{"a":1}` then `zzz`) fails to parse as JSON, yet the finalized ToolCall
carries `{"a": 1}` — the args of the last successful parse — not the
empty-object value the claim requires. -/
theorem c8_counterexample :
    parseJson ("\x7b\"a\":1\x7d" ++ "zzz") = none ∧
    (handleStreamingResponse c8input).toolCalls =
      [⟨"call_1", "f", Json.obj [("a", Json.num 1)]⟩] ∧
    Json.obj [("a", Json.num 1)] ≠ Json.obj [] := by
  refine ⟨rfl, rfl, by simp⟩

/-- C8 amended: when a later argument fragment makes the spliced argument
string unparseable, the resulting throw is contained — the state is
unchanged, so that call keeps the args of its last successful parse (the
empty object when the name-carrying fragment had empty or absent
arguments), all other calls and the streamed text are untouched — and the
canonical response still completes through `message_stop` and the
terminator. -/
theorem c8_amended (st : ORState) (tc : ToolCallDelta) (last : ToolCall)
    (hname : optStrTruthy tc.fnName = false)
    (hcur : st.hasCurrent = true)
    (hargs : optStrTruthy tc.fnArgs = true)
    (hlast : st.toolCalls.getLast? = some last)
    (hsplice : parseJson (strDropLast (Json.stringify last.args) ++
      tc.fnArgs.getD "" ++ "\x7d") = none) :
    processToolCallDelta st tc = (st, true) ∧
    ∃ fs, emitStream st.chunksOut st.toolCalls =
        fs ++ [Frame.messageDelta "end_turn" (outTok (sumLens st.chunksOut)),
               Frame.messageStop, Frame.done] := by
  constructor
  · simp only [processToolCallDelta, hname, hcur, hargs, hlast, Bool.false_eq_true,
      if_false, Bool.and_self, if_true]
    simp [hsplice]
  · exact ⟨_, by rw [emitStream_eq, List.append_assoc]⟩

/-- C8 witness: a concrete state holding one finalized call with args
`{"a": 1}` and a junk fragment whose splice fails to parse. -/
theorem c8_amended_witness :
    processToolCallDelta
        ⟨"", [⟨"call_1", "f", Json.obj [("a", Json.num 1)]⟩], true, [], 0⟩
        ⟨none, none, some "zzz"⟩ =
      (⟨"", [⟨"call_1", "f", Json.obj [("a", Json.num 1)]⟩], true, [], 0⟩, true) ∧
    ∃ fs, emitStream ([] : List String) [⟨"call_1", "f", Json.obj [("a", Json.num 1)]⟩] =
        fs ++ [Frame.messageDelta "end_turn" (outTok (sumLens [])),
               Frame.messageStop, Frame.done] :=
  c8_amended ⟨"", [⟨"call_1", "f", Json.obj [("a", Json.num 1)]⟩], true, [], 0⟩
    ⟨none, none, some "zzz"⟩ ⟨"call_1", "f", Json.obj [("a", Json.num 1)]⟩
    rfl rfl rfl rfl rfl

/-! ### Gemini native handler -/

theorem mapGeminiRole_isSome (r : Role) :
    (mapGeminiRole r).isSome = !(isSystemRole r) := by
  cases r <;> rfl

theorem geminiMessages_filter_system (msgs : List Message) :
    geminiMessages msgs =
      geminiMessages (msgs.filter (fun x => !(isSystemRole x.role))) := by
  induction msgs with
  | nil => rfl
  | cons m rest ih =>
    cases hr : isSystemRole m.role with
    | true =>
      have hs : (mapGeminiRole m.role).isSome = false := by
        rw [mapGeminiRole_isSome, hr]; rfl
      simp only [geminiMessages, List.map_cons, List.filter_cons, geminiMapMsg] at *
      simp only [hs, hr, Bool.not_true, if_false, Bool.false_eq_true]
      exact ih
    | false =>
      have hs : (mapGeminiRole m.role).isSome = true := by
        rw [mapGeminiRole_isSome, hr]; rfl
      simp only [geminiMessages, List.map_cons, List.filter_cons, geminiMapMsg] at *
      simp only [hs, hr, Bool.not_false, if_true]
      simp only [List.map_cons, List.filter_cons, geminiMapMsg, hs, if_true]
      rw [ih]

theorem geminiRequest_congr (msgs1 msgs2 : List Message)
    (hg : geminiMessages msgs1 = geminiMessages msgs2)
    (hl : (msgs1.getLast?).map (fun m => m.content) =
      (msgs2.getLast?).map (fun m => m.content)) :
    geminiRequest msgs1 = geminiRequest msgs2 := by
  unfold geminiRequest
  rw [hg, hl]

/-- C10 counterexample: for the message list consisting only of the
consolidated system message, the system message is filtered from the
mapped history, yet its content is passed verbatim to `sendMessageStream`
via the `messages[messages.length - 1].content` fallback — so it does
reach the Gemini-native request, contradicting the claim. -/
theorem c10_counterexample :
    sysOnlyMsgs.map (fun m => m.role) = [Role.system] ∧
    geminiRequest sysOnlyMsgs = some ([], MsgContent.str "SYS") :=
  ⟨rfl, rfl⟩

/-- C10 amended: messages with role system are mapped to an undefined role
and filtered out, so they never contribute to the Gemini history; and
whenever the message list does not end with a system message, the entire
dispatched request (history and `sendMessageStream` argument) is the same
as if the system messages had never been present.  Only when the list ends
with the system message (a system-only list) can its content reach the
backend, through the last-message fallback. -/
theorem c10_amended (pre : List Message) (m : Message)
    (h : isSystemRole m.role = false) :
    (∀ msgs : List Message,
      geminiMessages msgs = geminiMessages (msgs.filter (fun x => !(isSystemRole x.role)))) ∧
    geminiRequest (pre ++ [m]) =
      geminiRequest ((pre ++ [m]).filter (fun x => !(isSystemRole x.role))) := by
  refine ⟨geminiMessages_filter_system, ?_⟩
  apply geminiRequest_congr
  · exact geminiMessages_filter_system _
  · have hfil : (pre ++ [m]).filter (fun x => !(isSystemRole x.role)) =
        pre.filter (fun x => !(isSystemRole x.role)) ++ [m] := by
      rw [List.filter_append]
      simp [List.filter_cons, h]
    rw [hfil, List.getLast?_concat, List.getLast?_concat]

/-- C10 witness: a consolidated leading system message followed by a user
message; the dispatched Gemini request is the one of the system-free
list. -/
theorem c10_witness :
    (∀ msgs : List Message,
      geminiMessages msgs = geminiMessages (msgs.filter (fun x => !(isSystemRole x.role)))) ∧
    geminiRequest ([sysMsg] ++ [userHiMsg]) =
      geminiRequest (([sysMsg] ++ [userHiMsg]).filter (fun x => !(isSystemRole x.role))) :=
  c10_amended [sysMsg] userHiMsg rfl

end Claudish
